import Mathlib

/-!
Verification of the configuration and response modules of this
`globus-sdk-python` snapshot: `globus_sdk/config.py` and
`globus_sdk/response.py`.

The embedding is shallow.  Pure Python functions become Lean functions;
the process environment (`os.environ`) and the merged INI store of the
underlying `ConfigParser` are passed explicitly; Python exceptions become
`Except` values.  Definitions translated from `config.py`/`response.py`
carry the corresponding Python names.  The stdlib `ConfigParser` and the
transport response object are external collaborators (not part of this
repository), so their behaviour is modelled from the specification, as
flagged in the doc comments of the corresponding definitions.
-/

namespace GlobusSDK

/-- Python `str.lower()` for the ASCII strings handled here, written as a
map over the character list (the stdlib `String.map` recurses on UTF-8
positions and does not reduce inside the kernel, so the list form keeps
every definition evaluable). -/
def lowerStr (s : String) : String := String.mk (s.toList.map Char.toLower)

/-- Python `str.upper()`, written as a map over the character list for
the same reason as `lowerStr`. -/
def upperStr (s : String) : String := String.mk (s.toList.map Char.toUpper)

/-- Python `str.strip()` on a character list: drop whitespace from both
ends. -/
def trimChars (l : List Char) : List Char :=
  ((l.dropWhile Char.isWhitespace).reverse.dropWhile Char.isWhitespace).reverse

/-- Python `str.strip()`. -/
def trimStr (s : String) : String := String.mk (trimChars s.toList)

/-- Association list from string keys to string values, standing for the
Python string-to-string dicts used here: the option map of one config
section, `os.environ`, and HTTP header maps. -/
abbrev StrMap := List (String × String)

/-- Lookup in a `StrMap`; the first binding for a key wins.  The update
discipline of `setKey` keeps keys unique, matching Python dict lookup. -/
def lookup1 : StrMap → String → Option String
  | [], _ => none
  | (k₀, v₀) :: rest, k => if k₀ = k then some v₀ else lookup1 rest k

/-- Overwrite-or-append update of a `StrMap`, matching Python dict
assignment. -/
def setKey : StrMap → String → String → StrMap
  | [], k, v => [(k, v)]
  | (k₀, v₀) :: rest, k, v =>
    if k₀ = k then (k, v) :: rest else (k₀, v₀) :: setKey rest k v

/-- The merged section store of the underlying `ConfigParser`: section
name to option map.  Option keys are stored case-folded (the stdlib
`optionxform` lowercases option names on both read and lookup). -/
abbrev Store := List (String × StrMap)

/-- Section lookup in a `Store`. -/
def getSection : Store → String → Option StrMap
  | [], _ => none
  | (s₀, m) :: rest, s => if s₀ = s then some m else getSection rest s

/-- Set one option in a `Store`, creating the section if it is absent,
matching the dict-of-dicts update performed by the stdlib parser while
reading a file. -/
def setOpt : Store → String → String → String → Store
  | [], s, k, v => [(s, [(k, v)])]
  | (s₀, m) :: rest, s, k, v =>
    if s₀ = s then (s₀, setKey m k v) :: rest
    else (s₀, m) :: setOpt rest s k v

/-- Errors of the external `ConfigParser` store.  `config.py` imports
`NoOptionError` by name and relies on the stdlib contract: a `get` on an
absent section raises `NoSectionError`, a `get` on a present section
lacking the option raises `NoOptionError`. -/
inductive CPError where
  | noSection (sect : String)
  | noOption (sect opt : String)
deriving DecidableEq

/-- Modelled from the spec: the lookup of the external stdlib
`SafeConfigParser.get(section, option)` on the merged store (section 3 of
the spec: sections map case-insensitive option keys to string values).
A missing section yields `CPError.noSection`; a present section without
the (case-folded) option yields `CPError.noOption`. -/
def parserGet (store : Store) (sect opt : String) : Except CPError String :=
  match getSection store sect with
  | none => .error (.noSection sect)
  | some m =>
    match lookup1 m (lowerStr opt) with
    | none => .error (.noOption sect opt)
    | some v => .ok v

/-- Modelled from the spec: the name part of a `[name]` header line of
the external INI grammar (spec section 6), the characters between the
opening bracket and the first closing bracket; a header needs a nonempty
name. -/
def parseHeaderName : List Char → List Char → Option String
  | [], _ => none
  | c :: rest, acc =>
    if c = ']' then (if acc.isEmpty then none else some (String.mk acc.reverse))
    else parseHeaderName rest (c :: acc)

/-- Modelled from the spec: recognise a `[name]` header line; text after
the closing bracket is ignored, as in the stdlib header pattern. -/
def parseHeader (line : String) : Option String :=
  match line.toList with
  | '[' :: rest => parseHeaderName rest []
  | _ => none

/-- Modelled from the spec: split a line at the first `=` or `:`
delimiter into raw key and value parts. -/
def splitKV : List Char → Option (List Char × List Char)
  | [] => none
  | c :: rest =>
    if c = '=' ∨ c = ':' then some ([], rest)
    else
      match splitKV rest with
      | some (k, v) => some (c :: k, v)
      | none => none

/-- Modelled from the spec: a `key = value` or `key: value` line of the
external INI grammar.  Key and value are stripped; the key must be
nonempty and is case-folded, as the stdlib `optionxform` does. -/
def parseOption (line : String) : Option (String × String) :=
  match splitKV line.toList with
  | some (k, v) =>
    let key := trimChars k
    if key.isEmpty then none
    else some (lowerStr (String.mk key), String.mk (trimChars v))
  | none => none

/-- Modelled from the spec: blank lines and lines opening with `#` or `;`
are ignored by the external INI grammar. -/
def isSkippable (line : String) : Bool :=
  (trimChars line.toList).isEmpty ||
    (match line.toList with
     | c :: _ => c = '#' || c = ';'
     | [] => false)

/-- What a single config line contributes: nothing, a new current
section, or one key/value binding. -/
inductive LineKind where
  | skip
  | header (name : String)
  | kv (key value : String)

/-- Modelled from the spec: classify one line of a config file under the
external INI grammar (spec section 6).  A line that parses neither as a
header nor as a binding is ignored here; no claim involves malformed
lines. -/
def classifyLine (line : String) : LineKind :=
  if isSkippable line then .skip
  else
    match parseHeader line with
    | some name => .header name
    | none =>
      match parseOption line with
      | some (k, v) => .kv k v
      | none => .skip

/-- Parser state while reading one file: the store built so far and the
current section, if a header has been seen. -/
structure PState where
  store : Store
  cursect : Option String

/-- Process one line: headers switch the current section (merging with a
section of the same name seen earlier, as the py2 parser does), bindings
overwrite within the current section, and bindings before any header are
dropped (unreachable in `_read`, which always prepends a header). -/
def step (ps : PState) (line : String) : PState :=
  match classifyLine line with
  | .skip => ps
  | .header name => { ps with cursect := some name }
  | .kv k v =>
    match ps.cursect with
    | some sect => { ps with store := setOpt ps.store sect k v }
    | none => ps

/-- Modelled from the spec: `readfp` of the external parser, merging the
lines of one file into an existing store.  A file is modelled as its
list of lines. -/
def readfp (store : Store) (lines : List String) : Store :=
  (List.foldl step { store := store, cursect := none } lines).store

namespace GlobusConfigParser

/-- The class attribute `_GENERAL_CONF_SECTION = 'general'`. -/
def GENERAL_CONF_SECTION : String := "general"

/-- Handling of one candidate config file by `_read`: an unreadable file
(`none`, the `IOError` case) is skipped silently; a readable one has the
line `[general]` prepended (the source prepends the text
`'[general]\n'`, which under the line model is exactly one extra leading
line) and is fed to the parser. -/
def readStep (acc : Store) (file : Option (List String)) : Store :=
  match file with
  | none => acc
  | some lines => readfp acc (("[" ++ GENERAL_CONF_SECTION ++ "]") :: lines)

/-- `GlobusConfigParser._read` from `config.py`: fold the candidate
files, in their fixed priority order, into one store. -/
def _read (store : Store) (files : List (Option (List String))) : Store :=
  List.foldl readStep store files

/-- Value of the recursive failover call in `GlobusConfigParser.get`,
namely `self.get(option, section=self._GENERAL_CONF_SECTION)` with its
defaults `environment=None`, `failover_to_general=False`,
`check_env=False`.  With those arguments the method reduces to one raw
store lookup that maps `NoOptionError` to `None`; the source recursion
bottoms out after this single hop.  `get_failover_eq` below proves the
inlining faithful to the recursive source. -/
def lookupPass (store : Store) (sect opt : String) : Except CPError (Option String) :=
  match parserGet store sect opt with
  | .ok v => .ok (some v)
  | .error (.noOption _ _) => .ok none
  | .error e => .error e

/-- `GlobusConfigParser.get` from `config.py`.  `osEnviron` stands for
`os.environ`; a Python `None` argument is `none`.  The test
`if environment:` in the source is Python truthiness, so the empty
string leaves the explicit `sect` argument in force.  Only the
`except NoOptionError:` clause exists in the source, translated by
matching exactly that error constructor; a `noSection` error escapes, as
it does in the Python code. -/
def get (store : Store) (osEnviron : StrMap) (opt : String)
    (sect : Option String) (environment : Option String)
    (failover_to_general : Bool) (check_env : Bool) : Except CPError (Option String) :=
  let sect := match environment with
    | some e => if e = "" then sect else some ("environment " ++ e)
    | none => sect
  let sect := match sect with
    | some s => s
    | none => GENERAL_CONF_SECTION
  let env_option_name := "GLOBUS_SDK_" ++ upperStr opt
  let envVal := if check_env then lookup1 osEnviron env_option_name else none
  match envVal with
  | some v => .ok (some v)
  | none =>
    match parserGet store sect opt with
    | .ok v => .ok (some v)
    | .error (.noOption _ _) =>
      if failover_to_general then lookupPass store GENERAL_CONF_SECTION opt
      else .ok none
    | .error e => .error e

end GlobusConfigParser

/-- `get_auth_token` from `config.py`: a lookup of `auth_token` scoped to
the given environment with `failover_to_general=True` and
`check_env=True`. -/
def get_auth_token (store : Store) (osEnviron : StrMap) (environment : String) :
    Except CPError (Option String) :=
  GlobusConfigParser.get store osEnviron "auth_token" none (some environment) true true

/-- The sequence of (section, key, value) bindings contributed by a list
of config lines, starting from a given current section.  This mirrors
`step` case for case and is the yardstick for the override claims: the
store built by the parser is exactly these bindings applied in order. -/
def assignsFrom : Option String → List String → List (String × String × String)
  | _, [] => []
  | cur, line :: rest =>
    match classifyLine line with
    | .skip => assignsFrom cur rest
    | .header name => assignsFrom (some name) rest
    | .kv k v =>
      match cur with
      | some sect => (sect, k, v) :: assignsFrom cur rest
      | none => assignsFrom cur rest

/-- Apply a sequence of bindings to a store, in order. -/
def applyAssigns (store : Store) (l : List (String × String × String)) : Store :=
  List.foldl (fun st t => setOpt st t.1 t.2.1 t.2.2) store l

/-- The value of the last binding of a given section and key in a
binding sequence, if any: the declaration that wins under the
last-write-wins merge. -/
def lastValue : List (String × String × String) → String → String → Option String
  | [], _, _ => none
  | (s₀, k₀, v₀) :: rest, s, k =>
    match lastValue rest s k with
    | some v => some v
    | none => if s₀ = s ∧ k₀ = k then some v₀ else none

/-- A candidate file that contributes no binding for the given section
and (case-folded) key: it is unreadable, or its lines, parsed behind the
prepended `[general]` header, never bind that pair. -/
def fileSkips (sect key : String) : Option (List String) → Bool
  | none => true
  | some lines =>
    (lastValue
      (assignsFrom none (("[" ++ GlobusConfigParser.GENERAL_CONF_SECTION ++ "]") :: lines))
      sect key).isNone

/-- Values wrapped by a `GlobusResponse`: the Python data a decoded JSON
body can yield.  `null` is the Python `None`, which is also what the
HTTP `data` accessor yields when decoding fails. -/
inductive Payload where
  | null
  | bool (b : Bool)
  | num (n : Int)
  | str (s : String)
  | arr (xs : List Payload)
  | obj (fields : List (String × Payload))

/-- Index given to `wrapper[key]`: a string or an integer. -/
inductive Key where
  | str (s : String)
  | int (i : Int)

/-- Python exceptions that the response module distinguishes:
`TypeError` (with its message), `KeyError`, `IndexError`, and the
`ValueError` of a failed JSON decode. -/
inductive PyError where
  | typeError (msg : String)
  | keyError (k : Key)
  | indexError
  | valueError

/-- Field lookup in a decoded JSON object. -/
def lookupField : List (String × Payload) → String → Option Payload
  | [], _ => none
  | (k₀, v₀) :: rest, k => if k₀ = k then some v₀ else lookupField rest k

/-- Whether a Python value supports `value[key]` at all (has indexing
capability): dicts, lists and strings do, `None`, booleans and numbers
do not. -/
def supportsIndexing : Payload → Bool
  | .obj _ => true
  | .arr _ => true
  | .str _ => true
  | _ => false

/-- Modelled from the spec: the native Python semantics of `data[key]`
on a decoded payload, the external behaviour `__getitem__` delegates to.
A dict raises `KeyError` for a missing key; lists and strings index by
integer (negative indices count from the end, out of range raises
`IndexError`) and raise `TypeError` on a string index; values without
indexing capability raise `TypeError`. -/
def pyIndex : Payload → Key → Except PyError Payload
  | .obj fields, .str s =>
    match lookupField fields s with
    | some v => .ok v
    | none => .error (.keyError (.str s))
  | .obj _, .int i => .error (.keyError (.int i))
  | .arr xs, .int i =>
    let j := if i < 0 then i + xs.length else i
    if h : 0 ≤ j ∧ j.toNat < xs.length then .ok (xs.get ⟨j.toNat, h.2⟩)
    else .error .indexError
  | .arr _, .str _ => .error (.typeError "list indices must be integers")
  | .str s, .int i =>
    let cs := s.toList
    let j := if i < 0 then i + cs.length else i
    if h : 0 ≤ j ∧ j.toNat < cs.length then .ok (.str (String.mk [cs.get ⟨j.toNat, h.2⟩]))
    else .error .indexError
  | .str _, .str _ => .error (.typeError "string indices must be integers")
  | _, _ => .error (.typeError "object is not subscriptable")

/-- The normalized message raised by `GlobusResponse.__getitem__` when
the payload does not support indexing, verbatim from `response.py`. -/
def responseIndexingMsg : String :=
  "This type of GlobusResponse object does not support indexing."

/-- The try/except body of `GlobusResponse.__getitem__` applied to an
already evaluated `data` value: a native `TypeError` is re-raised with
the single normalized message; every other outcome, in particular a
`KeyError` from a dict payload, passes through unchanged. -/
def normalizeIndex (d : Payload) (k : Key) : Except PyError Payload :=
  match pyIndex d k with
  | .error (.typeError _) => .error (.typeError responseIndexingMsg)
  | r => r

namespace GlobusResponse

/-- The `data` property of the base class: returns `self._data`
unchanged. -/
def data (d : Payload) : Payload := d

/-- `GlobusResponse.__getitem__` from `response.py`: evaluate the `data`
property, index it, and normalize a `TypeError`. -/
def __getitem__ (d : Payload) (k : Key) : Except PyError Payload :=
  normalizeIndex (data d) k

end GlobusResponse

/-- Modelled from the spec: the transport response object the HTTP
specialization wraps (spec section 6, collaborator interface): an
integer status code, a header map, a raw text body, and a `json()`
method that yields the decoded body or raises `ValueError` when the
body is not valid JSON. -/
structure HTTPResponseLike where
  status_code : Int
  headers : StrMap
  text : String
  json : Except PyError Payload

namespace GlobusHTTPResponse

/-- The `http_status` attribute captured by `__init__`. -/
def http_status (r : HTTPResponseLike) : Int := r.status_code

/-- The `content_type` attribute captured by `__init__` from the
`Content-Type` header (`none` models the `KeyError` of a missing
header, not exercised by any claim). -/
def content_type (r : HTTPResponseLike) : Option String :=
  lookup1 r.headers "Content-Type"

/-- The overriding `data` property of `GlobusHTTPResponse`: call the
transport `json()` on every access; only a `ValueError` is caught and
turned into the Python `None`. -/
def data (r : HTTPResponseLike) : Except PyError Payload :=
  match r.json with
  | .ok p => .ok p
  | .error .valueError => .ok .null
  | .error e => .error e

/-- The `text` property: the raw body string of the transport
response. -/
def text (r : HTTPResponseLike) : String := r.text

/-- The inherited `__getitem__` dispatching to the overriding `data`
property.  The source evaluates the property before the try block, so an
error from the getter itself is never normalized; a successful `data`
value is indexed under the normalizing handler. -/
def __getitem__ (r : HTTPResponseLike) (k : Key) : Except PyError Payload :=
  match data r with
  | .ok d => normalizeIndex d k
  | .error e => .error e

end GlobusHTTPResponse

/-- The inlined `lookupPass` agrees with the recursive source call
`self.get(option, section='general')` at every store and environment. -/
theorem get_failover_eq (store : Store) (osEnviron : StrMap) (opt : String) :
    GlobusConfigParser.get store osEnviron opt
        (some GlobusConfigParser.GENERAL_CONF_SECTION) none false false
      = GlobusConfigParser.lookupPass store GlobusConfigParser.GENERAL_CONF_SECTION opt := by
  unfold GlobusConfigParser.get GlobusConfigParser.lookupPass
  cases h : parserGet store GlobusConfigParser.GENERAL_CONF_SECTION opt with
  | ok v => simp [h]
  | error e => cases e <;> simp [h]

/-- C1: the claim says a lookup on a wholly absent key or section returns
`None` and never raises, for every combination of `failover_to_general`
and `check_env`.  The code violates this: with a store holding only a
`general` section and an empty `os.environ`, a lookup scoped to the
absent section `environment prod` raises `NoSectionError` under all four
flag combinations, because only `NoOptionError` is caught. -/
theorem config_get_missing_section_error :
    (GlobusConfigParser.get [("general", [("auth_token", "T")])] [] "auth_token"
        none (some "prod") false false = .error (.noSection "environment prod"))
  ∧ (GlobusConfigParser.get [("general", [("auth_token", "T")])] [] "auth_token"
        none (some "prod") false true = .error (.noSection "environment prod"))
  ∧ (GlobusConfigParser.get [("general", [("auth_token", "T")])] [] "auth_token"
        none (some "prod") true false = .error (.noSection "environment prod"))
  ∧ (GlobusConfigParser.get [("general", [("auth_token", "T")])] [] "auth_token"
        none (some "prod") true true = .error (.noSection "environment prod")) :=
  ⟨rfl, rfl, rfl, rfl⟩

/-- C2: the claim says `get_auth_token(E)` with `GLOBUS_SDK_AUTH_TOKEN`
unset, no `environment E` section and `auth_token = T` under `general`
returns `T`.  The code instead raises `NoSectionError` at the scoped
lookup, before the `failover_to_general` retry can fire, because the
failover clause catches only `NoOptionError`. -/
theorem get_auth_token_missing_section_error :
    get_auth_token [("general", [("auth_token", "SECRET")])] [] "prod"
      = .error (.noSection "environment prod") := rfl

/-- C7: with `check_env=True` and the environment variable
`GLOBUS_SDK_<OPTION_UPPERCASED>` set, `get` returns that variable
immediately, for every store and every section or environment scoping;
the scope never participates in the variable name. -/
theorem config_get_env_var_precedence (store : Store) (osEnviron : StrMap)
    (opt : String) (sect : Option String) (environment : Option String)
    (failover_to_general : Bool) (val : String)
    (h : lookup1 osEnviron ("GLOBUS_SDK_" ++ upperStr opt) = some val) :
    GlobusConfigParser.get store osEnviron opt sect environment failover_to_general true
      = .ok (some val) := by
  unfold GlobusConfigParser.get
  simp [h]

/-- Witness for C7 at a concrete store, environment and option: the
variable value wins over a differing file value in every source. -/
theorem config_get_env_var_precedence_witness :
    GlobusConfigParser.get
        [("general", [("token", "filevalue")]), ("environment prod", [("token", "filevalue2")])]
        [("GLOBUS_SDK_TOKEN", "envvalue")] "token" none (some "prod") true true
      = .ok (some "envvalue") :=
  config_get_env_var_precedence
    [("general", [("token", "filevalue")]), ("environment prod", [("token", "filevalue2")])]
    [("GLOBUS_SDK_TOKEN", "envvalue")] "token" none (some "prod") true "envvalue" (by rfl)

/-- C8: a truthy `environment` argument resolves the scope to the
section `environment <name>`, overriding any explicit `sect` argument;
with neither `sect` nor `environment` the scope is `general`.  Both
facts are stated behaviourally: the call equals the call with the
resolved explicit section. -/
theorem config_get_scope_resolution (store : Store) (osEnviron : StrMap)
    (opt : String) (sect : Option String) (e : String)
    (failover_to_general check_env : Bool) (he : e ≠ "") :
    (GlobusConfigParser.get store osEnviron opt sect (some e)
        failover_to_general check_env
      = GlobusConfigParser.get store osEnviron opt (some ("environment " ++ e)) none
          failover_to_general check_env)
  ∧ (GlobusConfigParser.get store osEnviron opt none none
        failover_to_general check_env
      = GlobusConfigParser.get store osEnviron opt
          (some GlobusConfigParser.GENERAL_CONF_SECTION) none
          failover_to_general check_env) := by
  constructor
  · unfold GlobusConfigParser.get
    simp [he]
  · rfl

/-- Witness for C8 at a concrete call: `environment="prod"` overrides the
explicit section argument, and the no-argument default is `general`. -/
theorem config_get_scope_resolution_witness :
    (GlobusConfigParser.get [("environment prod", [("x", "1")])] [] "x"
        (some "ignored") (some "prod") false false
      = GlobusConfigParser.get [("environment prod", [("x", "1")])] [] "x"
          (some ("environment " ++ "prod")) none false false)
  ∧ (GlobusConfigParser.get [("environment prod", [("x", "1")])] [] "x"
        none none false false
      = GlobusConfigParser.get [("environment prod", [("x", "1")])] [] "x"
          (some GlobusConfigParser.GENERAL_CONF_SECTION) none false false) :=
  config_get_scope_resolution [("environment prod", [("x", "1")])] [] "x"
    (some "ignored") "prod" false false (by decide)

/-- C10: an empty-string `environment` argument is falsy in the source
test `if environment:`, so the call behaves exactly as a call with no
environment argument, for every explicit section and flag choice. -/
theorem config_get_empty_environment (store : Store) (osEnviron : StrMap)
    (opt : String) (sect : Option String) (failover_to_general check_env : Bool) :
    GlobusConfigParser.get store osEnviron opt sect (some "") failover_to_general check_env
      = GlobusConfigParser.get store osEnviron opt sect none failover_to_general check_env := by
  unfold GlobusConfigParser.get
  simp

/-- Updating a key makes it present with the new value. -/
theorem lookup1_setKey_self (m : StrMap) (k v : String) :
    lookup1 (setKey m k v) k = some v := by
  induction m with
  | nil => simp [setKey, lookup1]
  | cons p rest ih =>
    obtain ⟨k₀, v₀⟩ := p
    by_cases h : k₀ = k
    · simp [setKey, h, lookup1]
    · simp [setKey, h, lookup1, ih]

/-- Updating one key leaves every other key unchanged. -/
theorem lookup1_setKey_ne (m : StrMap) (k v q : String) (h : k ≠ q) :
    lookup1 (setKey m k v) q = lookup1 m q := by
  induction m with
  | nil => simp [setKey, lookup1, h]
  | cons p rest ih =>
    obtain ⟨k₀, v₀⟩ := p
    by_cases h₀ : k₀ = k
    · subst h₀
      simp [setKey, lookup1, h]
    · simp [setKey, h₀, lookup1, ih]

/-- Setting an option updates (or creates) exactly the named section. -/
theorem getSection_setOpt_self (st : Store) (s k v : String) :
    getSection (setOpt st s k v) s = some (setKey ((getSection st s).getD []) k v) := by
  induction st with
  | nil => simp [setOpt, getSection, setKey]
  | cons p rest ih =>
    obtain ⟨s₀, m⟩ := p
    by_cases h : s₀ = s
    · subst h
      simp [setOpt, getSection]
    · simp [setOpt, h, getSection, ih]

/-- Setting an option leaves every other section unchanged. -/
theorem getSection_setOpt_ne (st : Store) (s k v q : String) (h : s ≠ q) :
    getSection (setOpt st s k v) q = getSection st q := by
  induction st with
  | nil => simp [setOpt, getSection, h]
  | cons p rest ih =>
    obtain ⟨s₀, m⟩ := p
    by_cases h₀ : s₀ = s
    · subst h₀
      simp [setOpt, getSection, h]
    · simp [setOpt, h₀, getSection, ih]

/-- A store lookup right after the matching write yields the written
value. -/
theorem parserGet_setOpt_self (st : Store) (s k v opt : String)
    (h : lowerStr opt = k) :
    parserGet (setOpt st s k v) s opt = .ok v := by
  simp [parserGet, getSection_setOpt_self, h, lookup1_setKey_self]

/-- A successful store lookup survives a write to any other section/key
pair. -/
theorem parserGet_setOpt_preserve (st : Store) (s k v sect opt w : String)
    (hne : ¬(s = sect ∧ k = lowerStr opt))
    (hok : parserGet st sect opt = .ok w) :
    parserGet (setOpt st s k v) sect opt = .ok w := by
  by_cases hs : s = sect
  · subst hs
    have hk : k ≠ lowerStr opt := fun hk => hne ⟨rfl, hk⟩
    cases hgs : getSection st s with
    | none => simp [parserGet, hgs] at hok
    | some m =>
      cases hl : lookup1 m (lowerStr opt) with
      | none => simp [parserGet, hgs, hl] at hok
      | some u =>
        have hw : u = w := by simpa [parserGet, hgs, hl] using hok
        subst hw
        simp [parserGet, getSection_setOpt_self, hgs, lookup1_setKey_ne _ _ _ _ hk, hl]
  · have heq : parserGet (setOpt st s k v) sect opt = parserGet st sect opt := by
      unfold parserGet
      rw [getSection_setOpt_ne st s k v sect hs]
    rw [heq]
    exact hok

/-- Reading lines beginning in any current section builds exactly the
store obtained by applying the contributed bindings in order. -/
theorem foldl_step_store (lines : List String) :
    ∀ (st : Store) (cur : Option String),
      (List.foldl step { store := st, cursect := cur } lines).store
        = applyAssigns st (assignsFrom cur lines) := by
  induction lines with
  | nil => intro st cur; rfl
  | cons line rest ih =>
    intro st cur
    rw [List.foldl_cons]
    cases hcl : classifyLine line with
    | skip =>
      simp only [assignsFrom, hcl]
      have hstep : step { store := st, cursect := cur } line = { store := st, cursect := cur } := by
        simp [step, hcl]
      rw [hstep, ih]
    | header name =>
      simp only [assignsFrom, hcl]
      have hstep : step { store := st, cursect := cur } line
          = { store := st, cursect := some name } := by
        simp [step, hcl]
      rw [hstep, ih]
    | kv k v =>
      simp only [assignsFrom, hcl]
      cases cur with
      | none =>
        have hstep : step { store := st, cursect := none } line
            = { store := st, cursect := none } := by
          simp [step, hcl]
        rw [hstep, ih]
      | some sect =>
        have hstep : step { store := st, cursect := some sect } line
            = { store := setOpt st sect k v, cursect := some sect } := by
          simp [step, hcl]
        rw [hstep, ih]
        rfl

/-- `readfp` is the application, in order, of the bindings its lines
contribute when no section is current yet. -/
theorem readfp_eq (st : Store) (lines : List String) :
    readfp st lines = applyAssigns st (assignsFrom none lines) :=
  foldl_step_store lines st none

/-- A successful store lookup survives a binding sequence that never
binds the same section and key. -/
theorem parserGet_applyAssigns_preserve (sect opt w : String)
    (l : List (String × String × String)) :
    ∀ (st : Store), lastValue l sect (lowerStr opt) = none →
      parserGet st sect opt = .ok w →
      parserGet (applyAssigns st l) sect opt = .ok w := by
  induction l with
  | nil => intro st _ hok; simpa [applyAssigns] using hok
  | cons t rest ih =>
    obtain ⟨s₀, k₀, v₀⟩ := t
    intro st hl hok
    cases hrest : lastValue rest sect (lowerStr opt) with
    | some u => simp [lastValue, hrest] at hl
    | none =>
      have hne : ¬(s₀ = sect ∧ k₀ = lowerStr opt) := by
        intro hc
        obtain ⟨h1, h2⟩ := hc
        simp [lastValue, hrest, h1, h2] at hl
      have hstep := parserGet_setOpt_preserve st s₀ k₀ v₀ sect opt w hne hok
      exact ih _ hrest hstep

/-- The last binding of a section and key in a binding sequence is the
value the final store reports for it, whatever store the sequence was
applied to. -/
theorem parserGet_applyAssigns_last (sect opt : String)
    (l : List (String × String × String)) :
    ∀ (st : Store) (v : String), lastValue l sect (lowerStr opt) = some v →
      parserGet (applyAssigns st l) sect opt = .ok v := by
  induction l with
  | nil => intro st v h; simp [lastValue] at h
  | cons t rest ih =>
    obtain ⟨s₀, k₀, v₀⟩ := t
    intro st v hl
    cases hrest : lastValue rest sect (lowerStr opt) with
    | some u =>
      have hv : u = v := by simpa [lastValue, hrest] using hl
      subst hv
      exact ih _ _ hrest
    | none =>
      by_cases hc : s₀ = sect ∧ k₀ = lowerStr opt
      · obtain ⟨h1, h2⟩ := hc
        have hv : v₀ = v := by simpa [lastValue, hrest, h1, h2] using hl
        subst hv h1
        exact parserGet_applyAssigns_preserve s₀ opt v₀ rest _ hrest
          (parserGet_setOpt_self st s₀ k₀ v₀ opt h2.symm)
      · exfalso
        simp [lastValue, hrest, hc] at hl

/-- A successful store lookup survives reading any further files that
never bind the same section and key. -/
theorem parserGet_read_preserve (sect opt w : String)
    (files : List (Option (List String))) :
    ∀ (st : Store), files.all (fileSkips sect (lowerStr opt)) = true →
      parserGet st sect opt = .ok w →
      parserGet (GlobusConfigParser._read st files) sect opt = .ok w := by
  induction files with
  | nil => intro st _ hok; exact hok
  | cons f rest ih =>
    intro st hall hok
    simp only [List.all_cons, Bool.and_eq_true] at hall
    obtain ⟨hf, hrest⟩ := hall
    cases f with
    | none => exact ih st hrest hok
    | some lines =>
      have hskip : lastValue
          (assignsFrom none
            (("[" ++ GlobusConfigParser.GENERAL_CONF_SECTION ++ "]") :: lines))
          sect (lowerStr opt) = none := by
        simpa [fileSkips, Option.isNone_iff_eq_none] using hf
      have hstep : parserGet
          (readfp st (("[" ++ GlobusConfigParser.GENERAL_CONF_SECTION ++ "]") :: lines))
          sect opt = .ok w := by
        rw [readfp_eq]
        exact parserGet_applyAssigns_preserve sect opt w _ st hskip hok
      exact ih _ hrest hstep

/-- C3: when a section/key pair is defined in several merged sources,
`get` returns the value from the source merged later in the fixed order,
regardless of the declarations of the earlier sources, and within the
deciding source the last-declared occurrence of the key wins.  Stated
over an arbitrary decomposition of the file list: the file `c` holds the
last binding of the pair (its last occurrence carrying value `v`), every
later file binds it nowhere, and the earlier files are arbitrary. -/
theorem config_later_source_wins
    (osEnviron : StrMap) (pre post : List (Option (List String)))
    (c : List String) (sect opt v : String)
    (hlast : lastValue
        (assignsFrom none (("[" ++ GlobusConfigParser.GENERAL_CONF_SECTION ++ "]") :: c))
        sect (lowerStr opt) = some v)
    (hpost : post.all (fileSkips sect (lowerStr opt)) = true) :
    GlobusConfigParser.get (GlobusConfigParser._read [] (pre ++ some c :: post))
      osEnviron opt (some sect) none false false = .ok (some v) := by
  have hsplit : GlobusConfigParser._read [] (pre ++ some c :: post)
      = GlobusConfigParser._read
          (readfp (GlobusConfigParser._read [] pre)
            (("[" ++ GlobusConfigParser.GENERAL_CONF_SECTION ++ "]") :: c)) post := by
    simp [GlobusConfigParser._read, List.foldl_append, List.foldl_cons,
      GlobusConfigParser.readStep]
  have hmid : parserGet
      (readfp (GlobusConfigParser._read [] pre)
        (("[" ++ GlobusConfigParser.GENERAL_CONF_SECTION ++ "]") :: c)) sect opt = .ok v := by
    rw [readfp_eq]
    exact parserGet_applyAssigns_last sect opt _ _ v hlast
  have hfin : parserGet (GlobusConfigParser._read [] (pre ++ some c :: post)) sect opt
      = .ok v := by
    rw [hsplit]
    exact parserGet_read_preserve sect opt v post _ hpost hmid
  unfold GlobusConfigParser.get
  simp [hfin]

/-- Witness for C3: three sources, the middle one overriding `x` from
the first with its own last declaration, the last one touching only
`y`. -/
theorem config_later_source_wins_witness :
    GlobusConfigParser.get
        (GlobusConfigParser._read []
          ([some ["x = 1"]] ++ some ["x = 2"] :: [some ["y = 3"]]))
        [] "x" (some "general") none false false = .ok (some "2") :=
  config_later_source_wins [] [some ["x = 1"]] [some ["y = 3"]] ["x = 2"]
    "general" "x" "2" (by rfl) (by rfl)

/-- C6: every readable source is parsed with the literal `[general]`
header line prepended, so its lines are processed starting inside the
`general` section; a headerless file with a line `key = value` hence
yields `get("key", section="general") == "value"`, and a later explicit
header simply starts a new section at that point, with the bindings
before it still landing in `general`. -/
theorem config_read_prepends_general_header :
    (∀ (st : Store) (lines : List String),
        GlobusConfigParser.readStep st (some lines)
          = (List.foldl step
              { store := st, cursect := some GlobusConfigParser.GENERAL_CONF_SECTION }
              lines).store)
  ∧ (GlobusConfigParser.get (GlobusConfigParser._read [] [some ["key = value"]]) []
        "key" (some "general") none false false = .ok (some "value"))
  ∧ (GlobusConfigParser.get
        (GlobusConfigParser._read [] [some ["key = value", "[sub]", "key = value2"]]) []
        "key" (some "sub") none false false = .ok (some "value2"))
  ∧ (GlobusConfigParser.get
        (GlobusConfigParser._read [] [some ["key = value", "[sub]", "key = value2"]]) []
        "key" (some "general") none false false = .ok (some "value")) :=
  ⟨fun st lines => rfl, rfl, rfl, rfl⟩

/-- C4: indexing a base `GlobusResponse` whose payload has no indexing
capability fails with the single normalized `TypeError` message, for
every payload and key; a `KeyError` raised by a dict-like payload passes
through `__getitem__` unchanged. -/
theorem response_indexing_normalization (d : Payload) (k : Key) :
    (supportsIndexing d = false →
      GlobusResponse.__getitem__ d k = .error (.typeError responseIndexingMsg))
  ∧ (∀ q, pyIndex d k = .error (.keyError q) →
      GlobusResponse.__getitem__ d k = .error (.keyError q)) := by
  constructor
  · intro h
    cases d with
    | null => cases k <;> rfl
    | bool b => cases k <;> rfl
    | num n => cases k <;> rfl
    | str s => simp [supportsIndexing] at h
    | arr xs => simp [supportsIndexing] at h
    | obj fields => simp [supportsIndexing] at h
  · intro q h
    unfold GlobusResponse.__getitem__ GlobusResponse.data normalizeIndex
    rw [h]

/-- Witness for C4: an integer payload is rejected with the normalized
message, and a missing key in a dict payload surfaces as the original
`KeyError`. -/
theorem response_indexing_normalization_witness :
    (GlobusResponse.__getitem__ (.num 5) (.int 0)
        = .error (.typeError responseIndexingMsg))
  ∧ (GlobusResponse.__getitem__ (.obj [("a", .num 1)]) (.str "b")
        = .error (.keyError (.str "b"))) :=
  ⟨(response_indexing_normalization (.num 5) (.int 0)).1 rfl,
   (response_indexing_normalization (.obj [("a", .num 1)]) (.str "b")).2 (.str "b") (by rfl)⟩

/-- C5: wrapping a transport response whose body is not valid JSON (its
`json()` raises `ValueError`), the `data` accessor yields the Python
`None`, the `text` accessor yields the raw body string, and indexed
access fails with the same normalized indexing `TypeError` as the base
case, not with a decode error, since indexing goes through the decoded
`data`. -/
theorem http_nonjson_body_normalized (r : HTTPResponseLike) (k : Key)
    (h : r.json = .error .valueError) :
    GlobusHTTPResponse.data r = .ok Payload.null
  ∧ GlobusHTTPResponse.text r = r.text
  ∧ GlobusHTTPResponse.__getitem__ r k = .error (.typeError responseIndexingMsg) := by
  have hd : GlobusHTTPResponse.data r = .ok Payload.null := by
    unfold GlobusHTTPResponse.data
    rw [h]
  refine ⟨hd, rfl, ?_⟩
  unfold GlobusHTTPResponse.__getitem__
  rw [hd]
  cases k <;> rfl

/-- Witness for C5 on a concrete plain-text response body. -/
theorem http_nonjson_body_normalized_witness :
    GlobusHTTPResponse.data
        ⟨200, [("Content-Type", "text/plain")], "not json", .error .valueError⟩
      = .ok Payload.null
  ∧ GlobusHTTPResponse.text
        ⟨200, [("Content-Type", "text/plain")], "not json", .error .valueError⟩
      = "not json"
  ∧ GlobusHTTPResponse.__getitem__
        ⟨200, [("Content-Type", "text/plain")], "not json", .error .valueError⟩
        (.str "id")
      = .error (.typeError responseIndexingMsg) :=
  http_nonjson_body_normalized
    ⟨200, [("Content-Type", "text/plain")], "not json", .error .valueError⟩ (.str "id") rfl

/-- C9: the `data` accessor of the HTTP specialization decodes on each
access with no cached state (the wrapper stores only the transport
object, and `data` is a function of its current `json()` outcome): a
successful decode is returned as is, and a decode `ValueError` is
swallowed into the Python `None` instead of being raised. -/
theorem http_data_fresh_decode (r : HTTPResponseLike) :
    (r.json = .error .valueError → GlobusHTTPResponse.data r = .ok Payload.null)
  ∧ (∀ p, r.json = .ok p → GlobusHTTPResponse.data r = .ok p) := by
  constructor
  · intro h
    unfold GlobusHTTPResponse.data
    rw [h]
  · intro p h
    unfold GlobusHTTPResponse.data
    rw [h]

/-- Witness for C9: a malformed body yields `None`, a decoded body is
passed through. -/
theorem http_data_fresh_decode_witness :
    GlobusHTTPResponse.data ⟨500, [], "oops", .error .valueError⟩ = .ok Payload.null
  ∧ GlobusHTTPResponse.data ⟨200, [], "[1]", .ok (.arr [.num 1])⟩ = .ok (.arr [.num 1]) :=
  ⟨(http_data_fresh_decode ⟨500, [], "oops", .error .valueError⟩).1 rfl,
   (http_data_fresh_decode ⟨200, [], "[1]", .ok (.arr [.num 1])⟩).2 (.arr [.num 1]) rfl⟩

end GlobusSDK
